import Mathlib

/-!
Verification of the fatigue-scoring engine of `app/model/video_predict.py`
(class `FatigueTrendAnalyzer` and class `VideoFatiguePredictor`).

A frame of the input list is embedded as `Option (ℚ × ℚ)`: `none` stands for
a frame whose decoding fails (the python loop skips it with `continue`),
`some (ear, mar)` stands for a decoded frame together with the eye- and
mouth-aspect ratios that `_calculate_ear_mar_on_frame` extracts from it
(a decoded frame with no detected face yields `some (0, 0)`).
Python floats are embedded as rationals; every constant of the source
(0.18, 0.6, 1e-6, 0.85, 0.5, 20.0, 10.0, 5.0, 90.0, 100.0, 0.3, 0.15,
0.4, 0.8, 2.0, 0.99, 0.05) is exactly representable.
-/

namespace VideoPredict

/-- Threshold `EYE_AR_THRESH = 0.18` of the source. -/
def EYE_AR_THRESH : ℚ := 18/100

/-- Threshold `MAR_THRESH = 0.60` of the source. -/
def MAR_THRESH : ℚ := 60/100

/-- One input frame: `none` = decode failure, `some (ear, mar)` = decoded. -/
abbrev Frame := Option (ℚ × ℚ)

/-- State of one `FatigueTrendAnalyzer` instance: the two bounded FIFOs
(`deque(maxlen=window_size)`), the optional calibrated baseline, and the
capacity both FIFOs were created with. -/
structure TrendState where
  windowSize : ℕ
  earHistory : List ℚ
  baselineEar : Option ℚ
  yawnHistory : List ℕ
deriving Repr, DecidableEq

/-- The default of the `window_size` parameter of
`FatigueTrendAnalyzer.__init__` (source: `def __init__(self, window_size=30)`). -/
def defaultWindowSize : ℕ := 30

/-- `FatigueTrendAnalyzer.__init__` with an explicit `window_size` argument. -/
def mkTrendAnalyzer (windowSize : ℕ) : TrendState :=
  { windowSize := windowSize, earHistory := [], baselineEar := none, yawnHistory := [] }

/-- Appending to a `deque(maxlen=w)`: push on the right, drop from the left
anything beyond capacity `w`. -/
def pushWindow {α : Type} (w : ℕ) (x : α) (l : List α) : List α :=
  let l2 := l ++ [x]
  if w < l2.length then l2.drop (l2.length - w) else l2

/-- `np.mean` of a list of rationals. -/
def listMean (l : List ℚ) : ℚ := l.sum / (l.length : ℚ)

/-- `CALIBRATION_FRAMES = 10` set in `FatigueTrendAnalyzer.__init__`. -/
def CALIBRATION_FRAMES : ℕ := 10

/-- Warning-level derivation of `FatigueTrendAnalyzer.update` (the three
`if` statements after the flags are computed). -/
def trendLevel (isDropping isDroppingHeavy isFreqYawning : Bool) : ℕ :=
  let w1 : ℕ := if isDropping then 1 else 0
  let w2 : ℕ := if isFreqYawning then (if w1 = 1 then 2 else 1) else w1
  if isDroppingHeavy then 2 else w2

/-- `FatigueTrendAnalyzer.update(current_ear, current_mar)`: returns the new
state together with the warning level 0/1/2. -/
def trendUpdate (st : TrendState) (ear mar : ℚ) : TrendState × ℕ :=
  let earH := pushWindow st.windowSize ear st.earHistory
  let yawnFlag : ℕ := if MAR_THRESH < mar then 1 else 0
  let yawnH := pushWindow st.windowSize yawnFlag st.yawnHistory
  match st.baselineEar with
  | none =>
    if CALIBRATION_FRAMES ≤ earH.length then
      ({ st with earHistory := earH, yawnHistory := yawnH,
                 baselineEar := some (listMean earH) }, 0)
    else
      ({ st with earHistory := earH, yawnHistory := yawnH }, 0)
  | some baseline =>
    let decayRatio := listMean earH / (baseline + 1/1000000)
    ({ st with earHistory := earH, yawnHistory := yawnH },
     trendLevel (decide (decayRatio < 85/100)) (decide (decayRatio < 1/2))
       (decide (2 ≤ yawnH.sum)))

/-- The per-pass mutable state of `_calculate_fatigue_metrics` before the
final scoring: the trend analyzer plus the loop-local counters. -/
structure PassState where
  trend : TrendState
  maxWarningLevel : ℕ
  currClosedSeq : ℕ
  maxClosedSeq : ℕ
  totalClosedFrames : ℕ
  validFrameCount : ℕ
  currentEnergy : ℚ
  minEnergyRecorded : ℚ
deriving Repr, DecidableEq

/-- Energy-slot constant `MAX_ENERGY = 100.0`. -/
def MAX_ENERGY : ℚ := 100

/-- Energy-slot constant `PENALTY_EYE_CLOSED = 20.0`. -/
def PENALTY_EYE_CLOSED : ℚ := 20

/-- Energy-slot constant `PENALTY_YAWN = 10.0`. -/
def PENALTY_YAWN : ℚ := 10

/-- Energy-slot constant `RECOVERY_NORMAL = 5.0`. -/
def RECOVERY_NORMAL : ℚ := 5

/-- The state `_calculate_fatigue_metrics` initializes before its loop:
`FatigueTrendAnalyzer(window_size=20)`, all counters 0,
`current_energy = 90.0`, `min_energy_recorded = 100.0`. -/
def initPassState : PassState :=
  { trend := mkTrendAnalyzer 20, maxWarningLevel := 0, currClosedSeq := 0,
    maxClosedSeq := 0, totalClosedFrames := 0, validFrameCount := 0,
    currentEnergy := 90, minEnergyRecorded := 100 }

/-- One iteration of the loop of `_calculate_fatigue_metrics`: a frame that
fails to decode is skipped (`continue`), a decoded frame updates the
warning track, the trend analyzer and the energy slot. -/
def processFrame (st : PassState) (f : Frame) : PassState :=
  match f with
  | none => st
  | some (ear, mar) =>
    let isEyeClosed := ear < EYE_AR_THRESH
    let isYawning := MAR_THRESH < mar
    let currClosedSeq := if isEyeClosed then st.currClosedSeq + 1 else 0
    let tu := trendUpdate st.trend ear mar
    let e1 :=
      if isEyeClosed then
        st.currentEnergy - PENALTY_EYE_CLOSED -
          (if 2 ≤ currClosedSeq then 10 else 0)
      else if isYawning then st.currentEnergy - PENALTY_YAWN
      else st.currentEnergy + RECOVERY_NORMAL
    let currentEnergy := max 0 (min e1 MAX_ENERGY)
    { trend := tu.1,
      maxWarningLevel := max st.maxWarningLevel tu.2,
      currClosedSeq := currClosedSeq,
      maxClosedSeq := if isEyeClosed then st.maxClosedSeq
                      else max st.maxClosedSeq st.currClosedSeq,
      totalClosedFrames := if isEyeClosed then st.totalClosedFrames + 1
                           else st.totalClosedFrames,
      validFrameCount := st.validFrameCount + 1,
      currentEnergy := currentEnergy,
      minEnergyRecorded := if currentEnergy < st.minEnergyRecorded then currentEnergy
                           else st.minEnergyRecorded }

/-- The whole loop of `_calculate_fatigue_metrics` over the frame list. -/
def runPass (frames : List Frame) : PassState :=
  frames.foldl processFrame initPassState

/-- The PERCLOS-to-score mapping of `_calculate_fatigue_metrics`
(the `if perclos >= 0.3 / elif perclos >= 0.15 / else` ladder). -/
def perclosScore (perclos : ℚ) : ℚ :=
  if 3/10 ≤ perclos then 8/10 + (perclos - 3/10)
  else if 15/100 ≤ perclos then 4/10 + ((perclos - 15/100) / (15/100)) * (4/10)
  else perclos * 2

/-- `energy_score = (100.0 - min_energy_recorded) / 100.0`. -/
def energyScoreOf (st : PassState) : ℚ := (100 - st.minEnergyRecorded) / 100

/-- `raw_score = max(energy_score, perclos_score)` where
`perclos = total_closed_frames / valid_frame_count`. -/
def rawScoreOf (st : PassState) : ℚ :=
  max (energyScoreOf st)
    (perclosScore ((st.totalClosedFrames : ℚ) / (st.validFrameCount : ℚ)))

/-- End-of-loop settlement of `_calculate_fatigue_metrics`: fold the open
closed-eye run into the maximum, handle `valid_frame_count == 0`, fuse the
scores, apply the hard override and clamp. -/
def finalizeMetrics (st : PassState) : ℚ × ℕ :=
  let maxClosedSeq := max st.maxClosedSeq st.currClosedSeq
  if st.validFrameCount = 0 then (0, 0)
  else
    let rawScore := rawScoreOf st
    let finalWarningLevel := if 2 ≤ maxClosedSeq then 2 else st.maxWarningLevel
    (max (min rawScore (99/100)) (5/100), finalWarningLevel)

/-- `VideoFatiguePredictor._calculate_fatigue_metrics(frames_subset)`. -/
def calculateFatigueMetrics (framesSubset : List Frame) : ℚ × ℕ :=
  if framesSubset = [] then (0, 0)
  else finalizeMetrics (runPass framesSubset)

/-- The slicing `frames_data[i : i + 30]` for `i = 0, 30, 60, ...` of
`predict_fatigue` (an empty slice is never produced). -/
def chunks30 : List Frame → List (List Frame)
  | [] => []
  | x :: xs => ((x :: xs).take 30) :: chunks30 ((x :: xs).drop 30)
termination_by l => l.length
decreasing_by simp; omega

/-- `VideoFatiguePredictor.predict_fatigue(user_id, frames_data)`: returns
`(group_scores, overall_score, overall_level)`. -/
def predictFatigue (framesData : List Frame) : List ℚ × ℚ × ℕ :=
  if framesData = [] then ([], 0, 0)
  else
    let overall := calculateFatigueMetrics framesData
    let groupScores :=
      if framesData.length < 30 then []
      else (chunks30 framesData).map (fun batch => (calculateFatigueMetrics batch).1)
    (groupScores, overall.1, overall.2)

/-! ## Observation functions used to state the claims -/

/-- Number of frames of the list that decode successfully. -/
def countValid (frames : List Frame) : ℕ := (frames.filterMap id).length

/-- The closed-eye flags (`ear < EYE_AR_THRESH`) of the valid frames of the
list, in order, with undecodable frames removed. -/
def closedFlags (frames : List Frame) : List Bool :=
  frames.filterMap (fun f => f.map (fun p => decide (p.1 < EYE_AR_THRESH)))

/-- One step of the run-length bookkeeping: the pair holds
(current run, maximum finished run). -/
def runFold (acc : ℕ × ℕ) (b : Bool) : ℕ × ℕ :=
  if b then (acc.1 + 1, acc.2) else (0, max acc.2 acc.1)

/-- Length of the longest run of `true` in a flag list, counting a run that
is still open at the end. -/
def maxClosedRun (l : List Bool) : ℕ :=
  let a := l.foldl runFold (0, 0)
  max a.2 a.1

/-! ## Basic lemmas about one loop iteration -/

theorem processFrame_none (st : PassState) : processFrame st none = st := rfl

theorem processFrame_validCount (st : PassState) (e m : ℚ) :
    (processFrame st (some (e, m))).validFrameCount = st.validFrameCount + 1 := rfl

theorem processFrame_currSeq (st : PassState) (e m : ℚ) :
    (processFrame st (some (e, m))).currClosedSeq =
      if e < EYE_AR_THRESH then st.currClosedSeq + 1 else 0 := rfl

theorem processFrame_maxSeq (st : PassState) (e m : ℚ) :
    (processFrame st (some (e, m))).maxClosedSeq =
      if e < EYE_AR_THRESH then st.maxClosedSeq
      else max st.maxClosedSeq st.currClosedSeq := rfl

theorem processFrame_maxWarn (st : PassState) (e m : ℚ) :
    (processFrame st (some (e, m))).maxWarningLevel =
      max st.maxWarningLevel (trendUpdate st.trend e m).2 := rfl

theorem processFrame_energy (st : PassState) (e m : ℚ) :
    (processFrame st (some (e, m))).currentEnergy =
      max 0 (min
        (if e < EYE_AR_THRESH then
          st.currentEnergy - PENALTY_EYE_CLOSED -
            (if 2 ≤ (if e < EYE_AR_THRESH then st.currClosedSeq + 1 else 0) then 10 else 0)
         else if MAR_THRESH < m then st.currentEnergy - PENALTY_YAWN
         else st.currentEnergy + RECOVERY_NORMAL) MAX_ENERGY) := rfl

theorem processFrame_minEnergy (st : PassState) (e m : ℚ) :
    (processFrame st (some (e, m))).minEnergyRecorded =
      if (processFrame st (some (e, m))).currentEnergy < st.minEnergyRecorded then
        (processFrame st (some (e, m))).currentEnergy
      else st.minEnergyRecorded := rfl

theorem trendLevel_le_two (a b c : Bool) : trendLevel a b c ≤ 2 := by
  simp only [trendLevel]
  split_ifs <;> norm_num

theorem trendUpdate_snd_le_two (st : TrendState) (e m : ℚ) :
    (trendUpdate st e m).2 ≤ 2 := by
  rcases hb : st.baselineEar with _ | b
  · simp only [trendUpdate, hb]
    split_ifs <;> norm_num
  · simpa only [trendUpdate, hb] using trendLevel_le_two _ _ _

/-! ## Fold invariants over a pass -/

theorem countValid_cons_none (t : List Frame) :
    countValid (none :: t) = countValid t := rfl

theorem countValid_cons_some (p : ℚ × ℚ) (t : List Frame) :
    countValid (some p :: t) = countValid t + 1 := by
  simp [countValid, List.filterMap_cons]

theorem foldl_validCount (frames : List Frame) (st : PassState) :
    (frames.foldl processFrame st).validFrameCount =
      st.validFrameCount + countValid frames := by
  induction frames generalizing st with
  | nil => simp [countValid]
  | cons f t ih =>
    cases f with
    | none =>
      rw [List.foldl_cons, processFrame_none, ih, countValid_cons_none]
    | some p =>
      obtain ⟨e, m⟩ := p
      rw [List.foldl_cons, ih, countValid_cons_some, processFrame_validCount]
      omega

theorem runPass_validCount (frames : List Frame) :
    (runPass frames).validFrameCount = countValid frames := by
  simpa [initPassState] using foldl_validCount frames initPassState

theorem foldl_maxWarn_le (frames : List Frame) (st : PassState)
    (h : st.maxWarningLevel ≤ 2) :
    (frames.foldl processFrame st).maxWarningLevel ≤ 2 := by
  induction frames generalizing st with
  | nil => simpa using h
  | cons f t ih =>
    cases f with
    | none => rw [List.foldl_cons, processFrame_none]; exact ih st h
    | some p =>
      obtain ⟨e, m⟩ := p
      rw [List.foldl_cons]
      refine ih _ ?_
      rw [processFrame_maxWarn]
      exact max_le h (trendUpdate_snd_le_two _ _ _)

theorem runPass_maxWarn_le (frames : List Frame) :
    (runPass frames).maxWarningLevel ≤ 2 :=
  foldl_maxWarn_le frames initPassState (by norm_num [initPassState])

theorem closedFlags_cons_none (t : List Frame) :
    closedFlags (none :: t) = closedFlags t := rfl

theorem closedFlags_cons_some (e m : ℚ) (t : List Frame) :
    closedFlags (some (e, m) :: t) =
      decide (e < EYE_AR_THRESH) :: closedFlags t := rfl

theorem foldl_run_sim (frames : List Frame) (st : PassState) :
    ((frames.foldl processFrame st).currClosedSeq,
     (frames.foldl processFrame st).maxClosedSeq) =
      (closedFlags frames).foldl runFold (st.currClosedSeq, st.maxClosedSeq) := by
  induction frames generalizing st with
  | nil => rfl
  | cons f t ih =>
    cases f with
    | none =>
      rw [List.foldl_cons, processFrame_none, closedFlags_cons_none]
      exact ih st
    | some p =>
      obtain ⟨e, m⟩ := p
      rw [List.foldl_cons, closedFlags_cons_some, List.foldl_cons]
      rw [ih (processFrame st (some (e, m)))]
      congr 1
      rw [processFrame_currSeq, processFrame_maxSeq, runFold]
      by_cases h : e < EYE_AR_THRESH <;> simp [h]

theorem runPass_closed_runs (frames : List Frame) :
    max (runPass frames).maxClosedSeq (runPass frames).currClosedSeq =
      maxClosedRun (closedFlags frames) := by
  have h := foldl_run_sim frames initPassState
  simp only [runPass, maxClosedRun]
  have h1 : (frames.foldl processFrame initPassState).currClosedSeq =
      ((closedFlags frames).foldl runFold (0, 0)).1 := by
    simpa [initPassState] using congrArg Prod.fst h
  have h2 : (frames.foldl processFrame initPassState).maxClosedSeq =
      ((closedFlags frames).foldl runFold (0, 0)).2 := by
    simpa [initPassState] using congrArg Prod.snd h
  rw [h1, h2]

/-! ## Lemmas about the 30-frame slicing -/

theorem chunks30_nil : chunks30 [] = [] := by simp [chunks30]

theorem chunks30_flatten : ∀ l : List Frame, (chunks30 l).flatten = l
  | [] => by simp [chunks30]
  | x :: xs => by
    rw [chunks30]
    have ih := chunks30_flatten ((x :: xs).drop 30)
    simp only [List.flatten_cons, ih, List.take_append_drop]
termination_by l => l.length
decreasing_by simp; omega

theorem chunks30_length : ∀ l : List Frame, (chunks30 l).length = (l.length + 29) / 30
  | [] => by simp [chunks30]
  | x :: xs => by
    rw [chunks30]
    have ih := chunks30_length ((x :: xs).drop 30)
    simp only [List.length_cons, ih, List.length_drop]
    omega
termination_by l => l.length
decreasing_by simp; omega

theorem chunks30_mem : ∀ l : List Frame, ∀ b ∈ chunks30 l, b ≠ [] ∧ b.length ≤ 30
  | [] => by simp [chunks30]
  | x :: xs => by
    rw [chunks30]
    intro b hb
    rcases List.mem_cons.mp hb with hb | hb
    · subst hb
      refine ⟨by simp, ?_⟩
      simpa using List.length_take_le 30 (x :: xs)
    · exact chunks30_mem ((x :: xs).drop 30) b hb
termination_by l => l.length
decreasing_by simp; omega

theorem chunks30_eq_nil_iff (l : List Frame) : chunks30 l = [] ↔ l = [] := by
  cases l with
  | nil => simp [chunks30]
  | cons x xs => rw [chunks30]; simp

theorem chunks30_dropLast : ∀ l : List Frame, ∀ b ∈ (chunks30 l).dropLast, b.length = 30
  | [] => by simp [chunks30]
  | x :: xs => by
    rw [chunks30]
    rcases hd : (x :: xs).drop 30 with _ | ⟨y, ys⟩
    · simp [hd, chunks30]
    · intro b hb
      have hne : chunks30 (y :: ys) ≠ [] := by
        rw [Ne, chunks30_eq_nil_iff]; simp
      rw [List.dropLast_cons_of_ne_nil hne] at hb
      rcases List.mem_cons.mp hb with hb | hb
      · subst hb
        have hlen : 30 < (x :: xs).length := by
          have := congrArg List.length hd
          simp only [List.length_drop] at this
          simp only [List.length_cons] at this ⊢
          omega
        simp only [List.length_take, List.length_cons] at *
        omega
      · have ih := chunks30_dropLast ((x :: xs).drop 30)
        rw [hd] at ih
        exact ih b hb
termination_by l => l.length
decreasing_by simp; omega

/-! ## Lemmas about closed-eye runs -/

theorem maxClosedRun_nil : maxClosedRun [] = 0 := rfl

theorem maxClosedRun_eq (l : List Bool) :
    maxClosedRun l = max (l.foldl runFold (0, 0)).2 (l.foldl runFold (0, 0)).1 := rfl

theorem runFold_max_mono (acc : ℕ × ℕ) (b : Bool) :
    max acc.2 acc.1 ≤ max (runFold acc b).2 (runFold acc b).1 := by
  cases b <;> simp [runFold] <;> omega

theorem foldl_runFold_max_mono (l : List Bool) (acc : ℕ × ℕ) :
    max acc.2 acc.1 ≤ max (l.foldl runFold acc).2 (l.foldl runFold acc).1 := by
  induction l generalizing acc with
  | nil => simp
  | cons b t ih =>
    exact le_trans (runFold_max_mono acc b) (by simpa using ih (runFold acc b))

theorem maxClosedRun_two_adjacent (l1 l2 : List Bool) :
    2 ≤ maxClosedRun (l1 ++ true :: true :: l2) := by
  rw [maxClosedRun_eq, List.foldl_append, List.foldl_cons, List.foldl_cons]
  set acc := l1.foldl runFold (0, 0) with hacc
  have h2 : runFold (runFold acc true) true = (acc.1 + 2, acc.2) := by
    simp [runFold]
  rw [h2]
  have := foldl_runFold_max_mono l2 (acc.1 + 2, acc.2)
  omega

theorem maxClosedRun_length_le : ∀ l : List Bool, maxClosedRun l = 0 ∨ l ≠ [] := by
  intro l
  cases l with
  | nil => left; rfl
  | cons b t => right; simp

theorem closedFlags_length (frames : List Frame) :
    (closedFlags frames).length = countValid frames := by
  induction frames with
  | nil => rfl
  | cons f t ih =>
    cases f with
    | none => rw [closedFlags_cons_none, countValid_cons_none, ih]
    | some p =>
      obtain ⟨e, m⟩ := p
      rw [closedFlags_cons_some, countValid_cons_some, List.length_cons, ih]

theorem closedFlags_replicate_none (k : ℕ) :
    closedFlags (List.replicate k none) = [] := by
  induction k with
  | zero => rfl
  | succ n ih => rw [List.replicate_succ, closedFlags_cons_none, ih]

theorem closedFlags_append (l1 l2 : List Frame) :
    closedFlags (l1 ++ l2) = closedFlags l1 ++ closedFlags l2 :=
  List.filterMap_append l1 l2 _

/-- Shared helper: a closed-eye run of length at least 2 among the valid
frames forces the returned warning level of the pass to 2. -/
theorem hardOverride_of_runs (frames : List Frame)
    (h : 2 ≤ maxClosedRun (closedFlags frames)) :
    (calculateFatigueMetrics frames).2 = 2 := by
  have hfl : closedFlags frames ≠ [] := by
    rcases maxClosedRun_length_le (closedFlags frames) with h0 | hne
    · omega
    · exact hne
  have hne : frames ≠ [] := by
    intro he
    subst he
    exact hfl rfl
  have hv : (runPass frames).validFrameCount ≠ 0 := by
    rw [runPass_validCount, ← closedFlags_length]
    exact fun h0 => hfl (List.length_eq_zero.mp h0)
  have hseq : 2 ≤ max (runPass frames).maxClosedSeq (runPass frames).currClosedSeq := by
    rw [runPass_closed_runs]; exact h
  simp only [calculateFatigueMetrics, if_neg hne, finalizeMetrics]
  rw [if_neg hv]
  simp [hseq]

/-! ## Energy-floor invariant -/

theorem processFrame_minEnergy_le (st : PassState) (f : Frame) :
    (processFrame st f).minEnergyRecorded ≤ st.minEnergyRecorded := by
  cases f with
  | none => rw [processFrame_none]
  | some p =>
    obtain ⟨e, m⟩ := p
    rw [processFrame_minEnergy]
    split_ifs with h
    · exact le_of_lt h
    · exact le_refl _

theorem first_valid_minEnergy (st : PassState) (e m : ℚ)
    (hc : st.currentEnergy = 90) (hm : st.minEnergyRecorded = 100) :
    (processFrame st (some (e, m))).minEnergyRecorded ≤ 95 := by
  have hce : (processFrame st (some (e, m))).currentEnergy ≤ 95 := by
    rw [processFrame_energy, hc]
    split_ifs <;>
      norm_num [PENALTY_EYE_CLOSED, PENALTY_YAWN, RECOVERY_NORMAL, MAX_ENERGY,
        max_le_iff, min_le_iff]
  rw [processFrame_minEnergy, hm]
  split_ifs with h
  · exact hce
  · exact absurd (lt_of_le_of_lt hce (by norm_num)) h

/-- Invariant carried through the loop for the energy floor: before the
first valid frame the energy slot is untouched, afterwards the recorded
minimum is at most 95. -/
def EnergyInv (st : PassState) : Prop :=
  (st.validFrameCount = 0 → st.currentEnergy = 90 ∧ st.minEnergyRecorded = 100) ∧
  (st.validFrameCount ≠ 0 → st.minEnergyRecorded ≤ 95)

theorem energyInv_step (st : PassState) (f : Frame) (h : EnergyInv st) :
    EnergyInv (processFrame st f) := by
  cases f with
  | none => rw [processFrame_none]; exact h
  | some p =>
    obtain ⟨e, m⟩ := p
    constructor
    · intro h0
      rw [processFrame_validCount] at h0
      omega
    · intro _
      by_cases hv : st.validFrameCount = 0
      · obtain ⟨hc, hm⟩ := h.1 hv
        exact first_valid_minEnergy st e m hc hm
      · exact le_trans (processFrame_minEnergy_le st _) (h.2 hv)

theorem foldl_energyInv (frames : List Frame) (st : PassState) (h : EnergyInv st) :
    EnergyInv (frames.foldl processFrame st) := by
  induction frames generalizing st with
  | nil => exact h
  | cons f t ih => exact ih _ (energyInv_step st f h)

theorem runPass_minEnergy_le (frames : List Frame) (h : countValid frames ≠ 0) :
    (runPass frames).minEnergyRecorded ≤ 95 := by
  have hInv : EnergyInv (runPass frames) :=
    foldl_energyInv frames initPassState
      ⟨fun _ => ⟨rfl, rfl⟩, fun h0 => absurd rfl h0⟩
  exact hInv.2 (by rw [runPass_validCount]; exact h)

/-! ## Lemmas about the PERCLOS-to-score mapping -/

/-- The PERCLOS-to-score mapping as the spec states it, branch by branch
(spec: `perclos ≥ 0.30 → 0.8 + (perclos − 0.30)`;
`0.15 ≤ perclos < 0.30 → 0.4 + ((perclos − 0.15)/0.15)·0.4`;
`perclos < 0.15 → perclos · 2.0`). -/
def perclosScoreSpec (perclos : ℚ) : ℚ :=
  if perclos ≥ 3/10 then 8/10 + (perclos - 3/10)
  else if 15/100 ≤ perclos ∧ perclos < 3/10 then
    4/10 + ((perclos - 15/100) / (15/100)) * (4/10)
  else perclos * 2

theorem perclosScore_low (p : ℚ) (h : p < 15/100) : perclosScore p = p * 2 := by
  unfold perclosScore
  rw [if_neg (by linarith), if_neg (by linarith)]

theorem perclosScore_mid (p : ℚ) (h1 : 15/100 ≤ p) (h2 : p < 3/10) :
    perclosScore p = 4/10 + (p - 15/100) * (8/3) := by
  unfold perclosScore
  rw [if_neg (by linarith), if_pos h1]
  ring

theorem perclosScore_high (p : ℚ) (h : 3/10 ≤ p) :
    perclosScore p = 8/10 + (p - 3/10) := by
  unfold perclosScore
  rw [if_pos h]

theorem perclosScore_eq_spec (p : ℚ) : perclosScore p = perclosScoreSpec p := by
  unfold perclosScoreSpec
  rcases lt_or_le p (15/100) with h | h
  · rw [perclosScore_low p h, if_neg (by simp only [ge_iff_le]; push_neg; linarith),
      if_neg (fun hc => absurd hc.1 (not_le.mpr h))]
  · rcases lt_or_le p (3/10) with h2 | h2
    · rw [perclosScore_mid p h h2, if_neg (by simp only [ge_iff_le]; push_neg; linarith),
        if_pos ⟨h, h2⟩]
      ring
    · rw [perclosScore_high p h2, if_pos (by exact h2)]

theorem perclosScore_mono (p q : ℚ) (hpq : p ≤ q) :
    perclosScore p ≤ perclosScore q := by
  rcases lt_or_le p (15/100) with hp1 | hp1
  · rw [perclosScore_low p hp1]
    rcases lt_or_le q (15/100) with hq1 | hq1
    · rw [perclosScore_low q hq1]; linarith
    · rcases lt_or_le q (3/10) with hq2 | hq2
      · rw [perclosScore_mid q hq1 hq2]; nlinarith
      · rw [perclosScore_high q hq2]; nlinarith
  · rcases lt_or_le p (3/10) with hp2 | hp2
    · rw [perclosScore_mid p hp1 hp2]
      rcases lt_or_le q (3/10) with hq2 | hq2
      · rw [perclosScore_mid q (le_trans hp1 hpq) hq2]; nlinarith
      · rw [perclosScore_high q hq2]; nlinarith
    · rw [perclosScore_high p hp2, perclosScore_high q (le_trans hp2 hpq)]
      linarith

theorem perclosScore_at_breakpoint_low : perclosScore (15/100) = 4/10 := by
  rw [perclosScore_mid (15/100) (le_refl _) (by norm_num)]
  norm_num

theorem perclosScore_at_breakpoint_high : perclosScore (3/10) = 8/10 := by
  rw [perclosScore_high (3/10) (le_refl _)]
  norm_num

theorem perclosScore_continuousAt_high (ε : ℚ) (hε : 0 < ε) :
    ∃ δ : ℚ, 0 < δ ∧ ∀ p : ℚ, |p - 3/10| < δ →
      |perclosScore p - perclosScore (3/10)| < ε := by
  refine ⟨min (3 * ε / 8) (3/20), lt_min (by linarith) (by norm_num), ?_⟩
  intro p hp
  rw [perclosScore_at_breakpoint_high]
  have hp1 := lt_of_lt_of_le hp (min_le_left _ _)
  have hp2 := lt_of_lt_of_le hp (min_le_right _ _)
  rw [abs_lt] at hp1 hp2 ⊢
  rcases lt_or_le p (3/10) with hq | hq
  · have hge : 15/100 ≤ p := by linarith [hp2.1]
    rw [perclosScore_mid p hge hq]
    constructor <;> nlinarith
  · rw [perclosScore_high p hq]
    constructor <;> nlinarith

theorem perclosScore_left_limit_low (ε : ℚ) (hε : 0 < ε) :
    ∃ δ : ℚ, 0 < δ ∧ ∀ p : ℚ, 15/100 - δ < p → p < 15/100 →
      |perclosScore p - 3/10| < ε := by
  refine ⟨ε / 2, by linarith, ?_⟩
  intro p h1 h2
  rw [perclosScore_low p h2, abs_lt]
  constructor <;> nlinarith

/-! ## Window capacity of the trend analyzer -/

theorem pushWindow_length_le {α : Type} (w : ℕ) (x : α) (l : List α) :
    (pushWindow w x l).length ≤ max w (l.length + 1) := by
  simp only [pushWindow]
  split_ifs with hw
  · simp only [List.length_drop, List.length_append, List.length_cons]
    omega
  · simp only [List.length_append, List.length_cons] at *
    omega

theorem pushWindow_length_le_of_le {α : Type} (w : ℕ) (x : α) (l : List α)
    (h : l.length ≤ w) : (pushWindow w x l).length ≤ w := by
  simp only [pushWindow]
  split_ifs with hw
  · simp only [List.length_drop, List.length_append, List.length_cons]
    omega
  · simp only [List.length_append, List.length_cons] at *
    omega

theorem trendUpdate_earHistory (st : TrendState) (e m : ℚ) :
    (trendUpdate st e m).1.earHistory = pushWindow st.windowSize e st.earHistory := by
  rcases hb : st.baselineEar with _ | b <;> simp only [trendUpdate, hb] <;> split_ifs <;> rfl

theorem trendUpdate_yawnHistory (st : TrendState) (e m : ℚ) :
    (trendUpdate st e m).1.yawnHistory =
      pushWindow st.windowSize (if MAR_THRESH < m then 1 else 0) st.yawnHistory := by
  rcases hb : st.baselineEar with _ | b <;> simp only [trendUpdate, hb] <;> split_ifs <;> rfl

theorem trendUpdate_windowSize (st : TrendState) (e m : ℚ) :
    (trendUpdate st e m).1.windowSize = st.windowSize := by
  rcases hb : st.baselineEar with _ | b <;> simp only [trendUpdate, hb] <;> split_ifs <;> rfl

/-! ## Concrete evaluations for the 40-open-frames scenario -/

/-- The frame of the scenario: wide-open eyes, no yawn. -/
def openFrame : Frame := some ((2:ℚ)/5, 1/10)

set_option maxRecDepth 8000 in
theorem eval_open_10 : calculateFatigueMetrics (List.replicate 10 openFrame) = (1/20, 0) := by
  rw [calculateFatigueMetrics, if_neg (by simp)]
  norm_num [openFrame, runPass, processFrame, trendUpdate, trendLevel,
    pushWindow, listMean, initPassState, mkTrendAnalyzer, finalizeMetrics, rawScoreOf,
    energyScoreOf, perclosScore, EYE_AR_THRESH, MAR_THRESH, MAX_ENERGY,
    PENALTY_EYE_CLOSED, PENALTY_YAWN, RECOVERY_NORMAL, CALIBRATION_FRAMES,
    List.replicate, List.foldl]

set_option maxRecDepth 8000 in
theorem eval_open_30 : calculateFatigueMetrics (List.replicate 30 openFrame) = (1/20, 0) := by
  rw [calculateFatigueMetrics, if_neg (by simp)]
  norm_num [openFrame, runPass, processFrame, trendUpdate, trendLevel,
    pushWindow, listMean, initPassState, mkTrendAnalyzer, finalizeMetrics, rawScoreOf,
    energyScoreOf, perclosScore, EYE_AR_THRESH, MAR_THRESH, MAX_ENERGY,
    PENALTY_EYE_CLOSED, PENALTY_YAWN, RECOVERY_NORMAL, CALIBRATION_FRAMES,
    List.replicate, List.foldl]

set_option maxRecDepth 8000 in
theorem eval_open_40 : calculateFatigueMetrics (List.replicate 40 openFrame) = (1/20, 0) := by
  rw [calculateFatigueMetrics, if_neg (by simp)]
  norm_num [openFrame, runPass, processFrame, trendUpdate, trendLevel,
    pushWindow, listMean, initPassState, mkTrendAnalyzer, finalizeMetrics, rawScoreOf,
    energyScoreOf, perclosScore, EYE_AR_THRESH, MAR_THRESH, MAX_ENERGY,
    PENALTY_EYE_CLOSED, PENALTY_YAWN, RECOVERY_NORMAL, CALIBRATION_FRAMES,
    List.replicate, List.foldl]

set_option maxRecDepth 8000 in
theorem chunks30_open_40 :
    chunks30 (List.replicate 40 openFrame) =
      [List.replicate 30 openFrame, List.replicate 10 openFrame] := by
  norm_num [chunks30, List.replicate]

/-! ## The claims -/

/-- C1: for every input frame list in which at least one frame decodes
successfully (`valid_frames > 0`), the result of `_calculate_fatigue_metrics`
satisfies `final_score ∈ [0.05, 0.99]` and `final_warning_level ∈ {0, 1, 2}`;
the overall pass and every group pass are calls of this one function, so this
covers them all. -/
theorem C1_pass_bounds (frames : List Frame) (h : 0 < countValid frames) :
    5/100 ≤ (calculateFatigueMetrics frames).1 ∧
    (calculateFatigueMetrics frames).1 ≤ 99/100 ∧
    ((calculateFatigueMetrics frames).2 = 0 ∨ (calculateFatigueMetrics frames).2 = 1 ∨
     (calculateFatigueMetrics frames).2 = 2) := by
  have hne : frames ≠ [] := by
    intro he
    rw [he] at h
    simp [countValid] at h
  have hv : (runPass frames).validFrameCount ≠ 0 := by
    rw [runPass_validCount]
    omega
  have hlev : (calculateFatigueMetrics frames).2 ≤ 2 := by
    simp only [calculateFatigueMetrics, if_neg hne, finalizeMetrics]
    rw [if_neg hv]
    simp only [Prod.snd]
    split_ifs
    · norm_num
    · exact runPass_maxWarn_le frames
  refine ⟨?_, ?_, by omega⟩
  · simp only [calculateFatigueMetrics, if_neg hne, finalizeMetrics]
    rw [if_neg hv]
    exact le_max_right _ _
  · simp only [calculateFatigueMetrics, if_neg hne, finalizeMetrics]
    rw [if_neg hv]
    exact max_le (le_trans (min_le_right _ _) (by norm_num)) (by norm_num)

/-- Witness for C1 at one open-eyes frame. -/
theorem C1_pass_bounds_witness :
    0 < countValid [openFrame] ∧
    (5/100 ≤ (calculateFatigueMetrics [openFrame]).1 ∧
     (calculateFatigueMetrics [openFrame]).1 ≤ 99/100 ∧
     ((calculateFatigueMetrics [openFrame]).2 = 0 ∨
      (calculateFatigueMetrics [openFrame]).2 = 1 ∨
      (calculateFatigueMetrics [openFrame]).2 = 2)) :=
  ⟨by decide, C1_pass_bounds [openFrame] (by decide)⟩

/-- C2: a run of at least 2 consecutive closed-eye valid frames
(`ear < EYE_AR_THRESH`) anywhere in a pass — a run still open at the end of
the pass included — forces the returned warning level of that pass to 2,
regardless of the trend levels and of the PERCLOS/energy scores. -/
theorem C2_hard_override (frames : List Frame)
    (h : 2 ≤ maxClosedRun (closedFlags frames)) :
    (calculateFatigueMetrics frames).2 = 2 :=
  hardOverride_of_runs frames h

/-- Witness for C2 at two closed-eyes frames. -/
theorem C2_hard_override_witness :
    2 ≤ maxClosedRun (closedFlags [some ((0:ℚ), 0), some ((0:ℚ), 0)]) ∧
    (calculateFatigueMetrics [some ((0:ℚ), 0), some ((0:ℚ), 0)]).2 = 2 := by
  have hlt : ((0:ℚ) < EYE_AR_THRESH) := by norm_num [EYE_AR_THRESH]
  have hflags : closedFlags [some ((0:ℚ), 0), some ((0:ℚ), 0)] = [true, true] := by
    rw [closedFlags_cons_some, closedFlags_cons_some]
    simp [hlt, closedFlags]
  have h2 : 2 ≤ maxClosedRun (closedFlags [some ((0:ℚ), 0), some ((0:ℚ), 0)]) := by
    rw [hflags]
    exact maxClosedRun_two_adjacent [] []
  exact ⟨h2, C2_hard_override _ h2⟩

/-- C3 counterexample: the PERCLOS-to-score mapping is not continuous at the
breakpoint `perclos = 0.15`: the ε-δ continuity statement fails there, since
arbitrarily close to the left of 0.15 the map stays near 0.3 while its value
at 0.15 is 0.4. -/
theorem C3_continuity_counterexample :
    ¬ (∀ ε : ℚ, 0 < ε → ∃ δ : ℚ, 0 < δ ∧ ∀ p : ℚ,
        |p - 15/100| < δ → |perclosScore p - perclosScore (15/100)| < ε) := by
  intro hcont
  obtain ⟨δ, hδ, hp⟩ := hcont (1/20) (by norm_num)
  have hq0 : 0 < min δ (3/20) := lt_min hδ (by norm_num)
  have hqδ : min δ (3/20) ≤ δ := min_le_left _ _
  have hqs : min δ (3/20) ≤ 3/20 := min_le_right _ _
  have happ := hp (15/100 - min δ (3/20) / 2)
    (by rw [abs_lt]; constructor <;> linarith)
  rw [perclosScore_low _ (by linarith), perclosScore_at_breakpoint_low] at happ
  rw [abs_lt] at happ
  linarith [happ.1]

/-- C3 (amended): the PERCLOS-to-score mapping equals the spec's piecewise
function, and it is continuous at the breakpoint 0.30; at the breakpoint 0.15
it is not continuous: the left-hand limit is 0.3 while the value is 0.4
(a jump of 0.1). -/
theorem C3_perclos_map_amended :
    (∀ p : ℚ, perclosScore p = perclosScoreSpec p) ∧
    (∀ ε : ℚ, 0 < ε → ∃ δ : ℚ, 0 < δ ∧ ∀ p : ℚ,
      |p - 3/10| < δ → |perclosScore p - perclosScore (3/10)| < ε) ∧
    (∀ ε : ℚ, 0 < ε → ∃ δ : ℚ, 0 < δ ∧ ∀ p : ℚ,
      15/100 - δ < p → p < 15/100 → |perclosScore p - 3/10| < ε) ∧
    perclosScore (15/100) = 4/10 :=
  ⟨perclosScore_eq_spec, perclosScore_continuousAt_high, perclosScore_left_limit_low,
    perclosScore_at_breakpoint_low⟩

/-- Witness for C3 (amended), instantiating the continuity statement at
ε = 1/10. -/
theorem C3_perclos_map_witness :
    (0:ℚ) < 1/10 ∧
    (∃ δ : ℚ, 0 < δ ∧ ∀ p : ℚ,
      |p - 3/10| < δ → |perclosScore p - perclosScore (3/10)| < 1/10) :=
  ⟨by norm_num, C3_perclos_map_amended.2.1 (1/10) (by norm_num)⟩

/-- C4: `predict_fatigue` computes the overall score and level over all
frames; the group scores are empty when fewer than 30 frames are given and
otherwise are the scores (levels discarded) of the contiguous 30-frame chunks,
of which there are exactly ⌈n/30⌉, which concatenate back to the input, are
all nonempty and of length at most 30, and all but the last have length
exactly 30. -/
theorem C4_grouping (frames : List Frame) :
    predictFatigue frames =
      ((if frames.length < 30 then []
        else (chunks30 frames).map (fun batch => (calculateFatigueMetrics batch).1)),
       (calculateFatigueMetrics frames).1, (calculateFatigueMetrics frames).2) ∧
    (chunks30 frames).length = (frames.length + 29) / 30 ∧
    (chunks30 frames).flatten = frames ∧
    (∀ b ∈ chunks30 frames, b ≠ [] ∧ b.length ≤ 30) ∧
    (∀ b ∈ (chunks30 frames).dropLast, b.length = 30) := by
  refine ⟨?_, chunks30_length frames, chunks30_flatten frames, chunks30_mem frames,
    chunks30_dropLast frames⟩
  by_cases he : frames = []
  · subst he
    simp [predictFatigue, calculateFatigueMetrics]
  · simp only [predictFatigue, if_neg he]

/-- C5: degenerate inputs produce the defined zero results: an empty frame
list yields `([], 0.0, 0)` from `predict_fatigue`, and a pass in which no
frame decodes yields `(0.0, 0)` — a score strictly below the 0.05 floor that
applies when `valid_frames > 0`. -/
theorem C5_degenerate :
    predictFatigue [] = ([], 0, 0) ∧
    ∀ frames : List Frame, countValid frames = 0 →
      calculateFatigueMetrics frames = (0, 0) ∧
      (calculateFatigueMetrics frames).1 < 5/100 := by
  refine ⟨rfl, ?_⟩
  intro frames h
  have hcalc : calculateFatigueMetrics frames = (0, 0) := by
    by_cases he : frames = []
    · subst he; rfl
    · simp only [calculateFatigueMetrics, if_neg he, finalizeMetrics]
      rw [if_pos (by rw [runPass_validCount]; exact h)]
  exact ⟨hcalc, by rw [hcalc]; norm_num⟩

/-- Witness for C5 at a single undecodable frame. -/
theorem C5_degenerate_witness :
    countValid [(none : Frame)] = 0 ∧
    calculateFatigueMetrics [(none : Frame)] = (0, 0) :=
  ⟨rfl, (C5_degenerate.2 [none] rfl).1⟩

/-- C6: the PERCLOS signal is monotone: with the same positive number of
valid frames, more closed-eye frames never give a smaller `perclos_score`;
equivalently the PERCLOS-to-score mapping is monotone non-decreasing on
[0, 1]. -/
theorem C6_perclos_monotone :
    (∀ c1 c2 v : ℕ, c1 ≤ c2 → 0 < v →
      perclosScore ((c1 : ℚ) / (v : ℚ)) ≤ perclosScore ((c2 : ℚ) / (v : ℚ))) ∧
    (∀ p q : ℚ, 0 ≤ p → p ≤ q → q ≤ 1 → perclosScore p ≤ perclosScore q) := by
  constructor
  · intro c1 c2 v hc hv
    apply perclosScore_mono
    have hv2 : (0:ℚ) < (v : ℚ) := by exact_mod_cast hv
    exact (div_le_div_iff_of_pos_right hv2).mpr (by exact_mod_cast hc)
  · intro p q h0 hpq h1
    exact perclosScore_mono p q hpq

/-- Witness for C6 with 1 ≤ 2 closed frames out of 4 valid frames. -/
theorem C6_perclos_monotone_witness :
    (1:ℕ) ≤ 2 ∧ 0 < 4 ∧
    perclosScore (((1:ℕ) : ℚ) / ((4:ℕ) : ℚ)) ≤ perclosScore (((2:ℕ) : ℚ) / ((4:ℕ) : ℚ)) :=
  ⟨by norm_num, by norm_num, C6_perclos_monotone.1 1 2 4 (by norm_num) (by norm_num)⟩

/-- C7 counterexample: the default of the trend analyzer's window-size
parameter is 30, not 20 (source: `def __init__(self, window_size=30)`). -/
theorem C7_default_window_counterexample : defaultWindowSize ≠ 20 := by
  norm_num [defaultWindowSize]

/-- C7 (amended): the sliding-window size of the trend analyzer is a
configurable parameter whose default value is 30 (not 20); the per-pass
pipeline instantiates the analyzer with 20; and an update never grows either
FIFO beyond the configured capacity. -/
theorem C7_window_amended :
    defaultWindowSize = 30 ∧
    initPassState.trend = mkTrendAnalyzer 20 ∧
    (mkTrendAnalyzer defaultWindowSize).windowSize = 30 ∧
    (∀ (st : TrendState) (e m : ℚ),
      st.earHistory.length ≤ st.windowSize → st.yawnHistory.length ≤ st.windowSize →
        (trendUpdate st e m).1.earHistory.length ≤ st.windowSize ∧
        (trendUpdate st e m).1.yawnHistory.length ≤ st.windowSize ∧
        (trendUpdate st e m).1.windowSize = st.windowSize) := by
  refine ⟨rfl, rfl, rfl, ?_⟩
  intro st e m he hy
  refine ⟨?_, ?_, trendUpdate_windowSize st e m⟩
  · rw [trendUpdate_earHistory]
    exact pushWindow_length_le_of_le _ _ _ he
  · rw [trendUpdate_yawnHistory]
    exact pushWindow_length_le_of_le _ _ _ hy

/-- Witness for C7 (amended) at the freshly constructed pipeline analyzer. -/
theorem C7_window_witness :
    (mkTrendAnalyzer 20).earHistory.length ≤ (mkTrendAnalyzer 20).windowSize ∧
    (trendUpdate (mkTrendAnalyzer 20) ((2:ℚ)/5) (1/10)).1.earHistory.length ≤
      (mkTrendAnalyzer 20).windowSize :=
  ⟨by decide,
   (C7_window_amended.2.2.2 (mkTrendAnalyzer 20) ((2:ℚ)/5) (1/10)
     (by decide) (by decide)).1⟩

set_option maxRecDepth 8000 in
/-- C8: for 40 frames that all decode with `ear = 0.4` and `mar = 0.1`
(wide-open eyes, no yawn), `predict_fatigue` returns overall score exactly
0.05, overall level 0, and group scores [0.05, 0.05] for the 30-frame and
10-frame chunks. -/
theorem C8_forty_open_frames :
    predictFatigue (List.replicate 40 openFrame) = ([1/20, 1/20], 1/20, 0) := by
  have hne : List.replicate 40 openFrame ≠ ([] : List Frame) := by simp
  simp only [predictFatigue, if_neg hne, List.length_replicate]
  rw [if_neg (by norm_num), chunks30_open_40]
  simp only [List.map_cons, List.map_nil, eval_open_40, eval_open_30, eval_open_10]

/-- C9: undecodable frames do not reset the consecutive-closed-eye run: two
valid closed-eye frames separated only by skipped frames form a closed run of
length 2, so the hard override forces the pass's warning level to 2, even
though the closed frames are not adjacent in the input list. -/
theorem C9_gap_closed_run (pre post : List Frame) (k : ℕ) (e1 m1 e2 m2 : ℚ)
    (h1 : e1 < EYE_AR_THRESH) (h2 : e2 < EYE_AR_THRESH) :
    (calculateFatigueMetrics
      (pre ++ some (e1, m1) :: (List.replicate k none ++ some (e2, m2) :: post))).2
      = 2 := by
  apply hardOverride_of_runs
  have hflags :
      closedFlags (pre ++ some (e1, m1) :: (List.replicate k none ++ some (e2, m2) :: post))
        = closedFlags pre ++ true :: true :: closedFlags post := by
    rw [closedFlags_append, closedFlags_cons_some, closedFlags_append,
      closedFlags_replicate_none, closedFlags_cons_some]
    simp [h1, h2]
  rw [hflags]
  exact maxClosedRun_two_adjacent _ _

/-- Witness for C9: two closed-eye frames separated by one undecodable
frame. -/
theorem C9_gap_closed_run_witness :
    ((0:ℚ) < EYE_AR_THRESH) ∧
    (calculateFatigueMetrics
      ([] ++ some ((0:ℚ), (0:ℚ)) :: (List.replicate 1 none ++ some ((0:ℚ), (0:ℚ)) :: []))).2
      = 2 :=
  ⟨by norm_num [EYE_AR_THRESH],
   C9_gap_closed_run [] [] 1 0 0 0 0 (by norm_num [EYE_AR_THRESH])
     (by norm_num [EYE_AR_THRESH])⟩

/-- C10: in every pass with at least one valid frame the recorded minimum
energy is at most 95, so `energy_score ≥ 0.05` and
`raw_score = max(energy_score, perclos_score) ≥ 0.05` already before
clamping, and the final score equals `min(raw_score, 0.99)`: the lower clamp
to 0.05 never strictly raises the score. -/
theorem C10_energy_floor (frames : List Frame) (h : 0 < countValid frames) :
    (runPass frames).minEnergyRecorded ≤ 95 ∧
    5/100 ≤ energyScoreOf (runPass frames) ∧
    5/100 ≤ rawScoreOf (runPass frames) ∧
    (calculateFatigueMetrics frames).1 = min (rawScoreOf (runPass frames)) (99/100) := by
  have hmin : (runPass frames).minEnergyRecorded ≤ 95 :=
    runPass_minEnergy_le frames (by omega)
  have hE : 5/100 ≤ energyScoreOf (runPass frames) := by
    unfold energyScoreOf
    linarith
  have hR : 5/100 ≤ rawScoreOf (runPass frames) := le_trans hE (le_max_left _ _)
  have hne : frames ≠ [] := by
    intro he
    rw [he] at h
    simp [countValid] at h
  have hv : (runPass frames).validFrameCount ≠ 0 := by
    rw [runPass_validCount]
    omega
  refine ⟨hmin, hE, hR, ?_⟩
  simp only [calculateFatigueMetrics, if_neg hne, finalizeMetrics]
  rw [if_neg hv]
  exact max_eq_left (le_min hR (by norm_num))

/-- Witness for C10 at one open-eyes frame. -/
theorem C10_energy_floor_witness :
    0 < countValid [openFrame] ∧
    ((runPass [openFrame]).minEnergyRecorded ≤ 95 ∧
     5/100 ≤ energyScoreOf (runPass [openFrame]) ∧
     5/100 ≤ rawScoreOf (runPass [openFrame]) ∧
     (calculateFatigueMetrics [openFrame]).1 =
       min (rawScoreOf (runPass [openFrame])) (99/100)) :=
  ⟨by decide, C10_energy_floor [openFrame] (by decide)⟩

end VideoPredict
